import Mathlib

/-!
Verification of the Unified API Adapter and Comparison Engine
(opencompass/models/unified_api.py and opencompass/evaluator/unified_evaluator.py).

The Python code is shallowly embedded: JSON documents become the inductive
type JValue, Python dicts become association lists with insert-or-overwrite
semantics, and code that can raise returns Option or Except values.
-/

namespace UnifiedApi

/-- A JSON-like value: the tree shape of request and response bodies and of
configuration values. Mirrors the Python data handled by the adapters
(None, bool, numbers, str, list, dict). Numbers are modelled as rationals. -/
inductive JValue where
  | null
  | bool (b : Bool)
  | num (q : ℚ)
  | str (s : String)
  | arr (elems : List JValue)
  | obj (fields : List (String × JValue))

/-- Python truthiness of a JSON value, as used by "if field not in config or
not config[field]" and by "str(result) if result else ...". -/
def JValue.isTruthy : JValue → Bool
  | .null => false
  | .bool b => b
  | .num q => !(q == 0)
  | .str s => !(s == "")
  | .arr elems => !elems.isEmpty
  | .obj fields => !fields.isEmpty

/-- Numeric coercion used by Python arithmetic on dict entries: numbers are
themselves, booleans coerce to 0 and 1, anything else raises (none). -/
def JValue.asNum : JValue → Option ℚ
  | .num q => some q
  | .bool b => some (if b then 1 else 0)
  | _ => none

/-- Lookup in a Python dict modelled as an association list (d.get(k) / d[k]). -/
def dGet {α : Type} : List (String × α) → String → Option α
  | [], _ => none
  | (k1, v1) :: rest, k => if k1 = k then some v1 else dGet rest k

/-- Assignment d[k] = v in a Python dict modelled as an association list:
an existing binding is overwritten in place, a new key is appended. -/
def dInsert {α : Type} : List (String × α) → String → α → List (String × α)
  | [], k, v => [(k, v)]
  | (k1, v1) :: rest, k, v =>
    if k1 = k then (k, v) :: rest else (k1, v1) :: dInsert rest k v

/-- Helper for splitDots: accumulates the current segment (reversed). -/
def splitDotsAux : List Char → List Char → List String
  | [], acc => [String.mk acc.reverse]
  | c :: cs, acc =>
    if c = '.' then String.mk acc.reverse :: splitDotsAux cs []
    else splitDotsAux cs (c :: acc)

/-- Python key_path.split(".") for a single-character separator: the empty
string yields one empty segment, adjacent dots yield empty segments. -/
def splitDots (s : String) : List String := splitDotsAux s.data []

/-- Textual form of a rational as Python prints the corresponding number:
integral values print without a denominator. -/
def ratStr (q : ℚ) : String := if q.den = 1 then toString q.num else toString q

/-- Python repr of a string, restricted to backslash, quote and common
whitespace escapes (sufficient for every value handled in this file). -/
def pyCharEscape (c : Char) : String :=
  if c = '\\' then "\\\\"
  else if c = '\x27' then "\\\x27"
  else if c = '\n' then "\\n"
  else if c = '\t' then "\\t"
  else if c = '\r' then "\\r"
  else String.singleton c

/-- Python repr of a string (single-quoted form). -/
def strRepr (s : String) : String :=
  "\x27" ++ String.join (s.data.map pyCharEscape) ++ "\x27"

mutual
/-- Python repr of a JSON value. -/
def pyRepr : JValue → String
  | .null => "None"
  | .bool true => "True"
  | .bool false => "False"
  | .num q => ratStr q
  | .str s => strRepr s
  | .arr elems => "[" ++ pyReprItems elems ++ "]"
  | .obj fields => "\x7b" ++ pyReprFields fields ++ "\x7d"

/-- Comma-separated reprs of the items of a Python list. -/
def pyReprItems : List JValue → String
  | [] => ""
  | [v] => pyRepr v
  | v :: rest => pyRepr v ++ ", " ++ pyReprItems rest

/-- Comma-separated "key: value" reprs of the entries of a Python dict. -/
def pyReprFields : List (String × JValue) → String
  | [] => ""
  | [(k, v)] => strRepr k ++ ": " ++ pyRepr v
  | (k, v) :: rest => strRepr k ++ ": " ++ pyRepr v ++ ", " ++ pyReprFields rest
end

/-- Python str() of a JSON value: a string prints itself, everything else
prints as its repr. -/
def pyStr : JValue → String
  | .str s => s
  | v => pyRepr v

/-- Core of RESTfulAdapter._set_nested_value on an already split key path.
The Python loop walks keys[:-1], creating an empty dict for an absent key and
descending; it then assigns the value at the last key. Descending into an
existing value that is not a dict makes the next subscript raise TypeError,
modelled here as none. The empty key list cannot arise from split. -/
def setNestedKeys (d : List (String × JValue)) :
    List String → JValue → Option (List (String × JValue))
  | [], _ => none
  | [k], v => some (dInsert d k v)
  | k :: k2 :: ks, v =>
    match dGet d k with
    | none =>
      match setNestedKeys [] (k2 :: ks) v with
      | some d2 => some (dInsert d k (.obj d2))
      | none => none
    | some (.obj d1) =>
      match setNestedKeys d1 (k2 :: ks) v with
      | some d2 => some (dInsert d k (.obj d2))
      | none => none
    | some _ => none

/-- RESTfulAdapter._set_nested_value(data, key_path, value): set a nested
dict entry using dot notation. Returns the updated dict, or none where the
Python code raises. -/
def set_nested_value (data : List (String × JValue)) (key_path : String)
    (value : JValue) : Option (List (String × JValue)) :=
  setNestedKeys data (splitDots key_path) value

/-- The walk loop of RESTfulAdapter._parse_response: for each key of the
split path, descend when the key is non-empty, the current value is a dict
and the key is present; otherwise break, keeping the last reached value. -/
def walkValue : JValue → List String → JValue
  | r, [] => r
  | r, k :: ks =>
    match r with
    | .obj d =>
      if k = "" then .obj d
      else
        match dGet d k with
        | some v => walkValue v ks
        | none => .obj d
    | r => r

/-- RESTfulAdapter._parse_response(response): walk the dot path stored under
the result key of response_mapping (defaulting to the empty path), then
return str(result) if result is truthy and the empty string otherwise. -/
def parse_response (response_mapping : List (String × String))
    (response : List (String × JValue)) : String :=
  let r := walkValue (.obj response) (splitDots ((dGet response_mapping "result").getD ""))
  if r.isTruthy then pyStr r else ""

/-- Modelled from the spec: getNested(container, dotPath) of the FieldMapper
(spec section 4.1) has no implementation under src; it walks the split path
and returns a not-found sentinel (none) when a key is absent or an
intermediate value is not a mapping, and the located value on success. -/
def getNestedKeys : JValue → List String → Option JValue
  | v, [] => some v
  | .obj d, k :: ks =>
    match dGet d k with
    | some v => getNestedKeys v ks
    | none => none
  | _, _ :: _ => none

/-- Modelled from the spec: getNested on an unsplit dot path. -/
def getNested (container : JValue) (dotPath : String) : Option JValue :=
  getNestedKeys container (splitDots dotPath)

/-- All existing values met strictly before the last segment of the path are
mappings (absent keys are fine: the setter creates fresh dicts for them). -/
def pathClear (d : List (String × JValue)) : List String → Bool
  | [] => true
  | [_] => true
  | k :: k2 :: ks =>
    match dGet d k with
    | none => true
    | some (.obj d1) => pathClear d1 (k2 :: ks)
    | some _ => false

/-- An adapter configuration: a Python dict of JSON values. -/
def Config : Type := List (String × JValue)

/-- config.get(k, default). -/
def configGet (config : Config) (k : String) (default : JValue) : JValue :=
  (dGet config k).getD default

/-- OpenAIAdapter.__init__: fields read from the config with their defaults. -/
structure OpenAIAdapter where
  api_key : JValue
  endpoint : JValue
  model : JValue

/-- OpenAIAdapter(config). -/
def OpenAIAdapter.build (config : Config) : OpenAIAdapter where
  api_key := configGet config "api_key" (.str "")
  endpoint := configGet config "endpoint" (.str "https://api.openai.com/v1/chat/completions")
  model := configGet config "model" (.str "gpt-3.5-turbo")

/-- OpenAIAdapter.validate_config: every required field (only api_key) must
be present and truthy. -/
def OpenAIAdapter.validate_config (config : Config) : Bool :=
  match dGet config "api_key" with
  | some v => v.isTruthy
  | none => false

/-- RESTfulAdapter.__init__: fields read from the config with their defaults. -/
structure RESTfulAdapter where
  endpoint : JValue
  method : JValue
  headers : JValue
  request_mapping : JValue
  response_mapping : JValue

/-- RESTfulAdapter(config). -/
def RESTfulAdapter.build (config : Config) : RESTfulAdapter where
  endpoint := configGet config "endpoint" (.str "")
  method := configGet config "method" (.str "POST")
  headers := configGet config "headers" (.obj [])
  request_mapping := configGet config "request_mapping" (.obj [])
  response_mapping := configGet config "response_mapping" (.obj [])

/-- RESTfulAdapter.validate_config: every required field (only endpoint) must
be present and truthy. -/
def RESTfulAdapter.validate_config (config : Config) : Bool :=
  match dGet config "endpoint" with
  | some v => v.isTruthy
  | none => false

/-- The adapter variants the manager can hand back. -/
inductive Adapter where
  | openai (a : OpenAIAdapter)
  | restful (a : RESTfulAdapter)

/-- The endpoint field of either variant. -/
def Adapter.endpoint : Adapter → JValue
  | .openai a => a.endpoint
  | .restful a => a.endpoint

/-- Dispatch of validate_config through the variant. -/
def Adapter.validate (a : Adapter) (config : Config) : Bool :=
  match a with
  | .openai _ => OpenAIAdapter.validate_config config
  | .restful _ => RESTfulAdapter.validate_config config

/-- The two ValueError failure modes of UnifiedAPIManager.create_adapter. -/
inductive AdapterError where
  | unsupported (adapter_type : String)
  | invalidConfig

/-- The message carried by the raised ValueError. -/
def AdapterError.message : AdapterError → String
  | .unsupported t => "Unsupported adapter type: " ++ t
  | .invalidConfig => "Invalid configuration for adapter"

/-- UnifiedAPIManager.create_adapter(adapter_type, config): the registry
holds the tags openai and restful; an unknown tag raises; otherwise the
variant is constructed and its validate_config is invoked on the same
config, raising when validation fails. -/
def create_adapter (adapter_type : String) (config : Config) :
    Except AdapterError Adapter :=
  match adapter_type with
  | "openai" =>
    let adapter := Adapter.openai (OpenAIAdapter.build config)
    if adapter.validate config then .ok adapter else .error .invalidConfig
  | "restful" =>
    let adapter := Adapter.restful (RESTfulAdapter.build config)
    if adapter.validate config then .ok adapter else .error .invalidConfig
  | t => .error (.unsupported t)

/-- The invariant claimed for accepted configurations: the endpoint is a
non-empty string beginning with the http or https scheme. -/
def endpointInvariant : JValue → Bool
  | .str s => !(s == "") && (("http://".data.isPrefixOf s.data) || ("https://".data.isPrefixOf s.data))
  | _ => false

/-- Observable trace of one UnifiedAPIModel._generate_single call: its final
outcome (returned text or raised exception message), the attempt indices that
actually issued an adapter call, in order, and the backoff sleeps performed
between attempts, in order. -/
structure SingleTrace where
  result : Except String String
  calls : List Nat
  sleeps : List Nat

/-- The retry loop of _generate_single: for attempt in range(retry + 1), try
the adapter call (oracle attempt); on success return; on failure re-raise
when attempt == retry, otherwise sleep 2 ** attempt and continue. The list
argument is the remaining iteration sequence of the range. The fall-through
return of the empty string after the loop is unreachable for non-empty
ranges. -/
def genLoop (oracle : Nat → Except String String) (retry : Nat) :
    List Nat → SingleTrace
  | [] => ⟨.ok "", [], []⟩
  | attempt :: rest =>
    match oracle attempt with
    | .ok s => ⟨.ok s, [attempt], []⟩
    | .error e =>
      if attempt = retry then ⟨.error e, [attempt], []⟩
      else
        let t := genLoop oracle retry rest
        ⟨t.result, attempt :: t.calls, 2 ^ attempt :: t.sleeps⟩

/-- UnifiedAPIModel._generate_single(prompt, ...): the retry loop over
range(retry + 1), with the adapter call for a given attempt abstracted as an
oracle from the attempt index to its outcome. -/
def generate_single (oracle : Nat → Except String String) (retry : Nat) :
    SingleTrace :=
  genLoop oracle retry (List.range (retry + 1))

/-- The per-item value stored into the results list by UnifiedAPIModel.generate:
the generated text, or the empty string when _generate_single raised
(both branches catch the exception and append or store the empty string). -/
def itemText (t : SingleTrace) : String :=
  match t.result with
  | .ok s => s
  | .error _ => ""

/-- One iteration of the sequential loop of UnifiedAPIModel.generate:
run the item, append its result, and log its adapter calls. -/
def seqStep (oracle : String → Nat → Except String String) (retry : Nat)
    (acc : List String × List (String × Nat)) (p : String) :
    List String × List (String × Nat) :=
  let t := generate_single (oracle p) retry
  (acc.1 ++ [itemText t], acc.2 ++ t.calls.map (fun k => (p, k)))

/-- The sequential branch of UnifiedAPIModel.generate (query_per_second == 0):
iterate the inputs in order, appending each item result. The second component
logs every adapter call as a (prompt, attempt) pair in issue order. -/
def generate_seq (oracle : String → Nat → Except String String) (retry : Nat)
    (inputs : List String) : List String × List (String × Nat) :=
  inputs.foldl (seqStep oracle retry) ([], [])

/-- One completed future of the thread-pool loop of UnifiedAPIModel.generate:
the future of item i writes its value back at index i. -/
def parStep (oracle : String → Nat → Except String String) (retry : Nat)
    (inputs : List String) (results : List (Option String)) (i : Nat) :
    List (Option String) :=
  match inputs[i]? with
  | some p => results.set i (some (itemText (generate_single (oracle p) retry)))
  | none => results

/-- The thread-pool branch of UnifiedAPIModel.generate (query_per_second > 0):
results is preallocated as [None] * len(inputs); futures complete in an
arbitrary order (the order argument), and each completed future writes its
item value at its originating index. -/
def generate_par (oracle : String → Nat → Except String String) (retry : Nat)
    (inputs : List String) (order : List Nat) : List (Option String) :=
  order.foldl (parStep oracle retry inputs) (List.replicate inputs.length none)

/-- UnifiedAPIModel.generate(inputs, ...): parallel dispatch when the
concurrency budget is positive, sequential otherwise. The sequential branch
never stores a None placeholder; results are injected into Option so both
branches share one result type. -/
def generate (oracle : String → Nat → Except String String) (retry : Nat)
    (query_per_second : Nat) (inputs : List String) (order : List Nat) :
    List (Option String) :=
  if 0 < query_per_second then generate_par oracle retry inputs order
  else (generate_seq oracle retry inputs).1.map some

/-- One metric entry produced by UnifiedEvaluator._calculate_metrics:
cloud value, edge value and their signed difference. -/
structure MetricDelta where
  cloud : ℚ
  edge : ℚ
  difference : ℚ
deriving DecidableEq

/-- The metrics dict produced by _calculate_metrics: at most one entry per
fixed key (accuracy, latency, throughput). -/
structure Metrics where
  accuracy : Option MetricDelta
  latency : Option MetricDelta
  throughput : Option MetricDelta
deriving DecidableEq

/-- One comparison block of UnifiedEvaluator._calculate_metrics: skipped
(with no entry) when the key is absent from the cloud result; otherwise the
cloud value and the edge value, which falls back to 0 via
edge_result.get(key, 0), are subtracted in the direction given by sub.
Arithmetic on a non-numeric operand raises (none). -/
def metricBlock (key : String) (sub : ℚ → ℚ → ℚ)
    (cloud_result edge_result : List (String × JValue)) :
    Option (Option MetricDelta) :=
  match dGet cloud_result key with
  | none => some none
  | some cv =>
    cv.asNum.bind fun c =>
      ((dGet edge_result key).getD (.num 0)).asNum.bind fun e =>
        some (some ⟨c, e, sub c e⟩)

/-- UnifiedEvaluator._calculate_metrics(cloud_result, edge_result): the three
blocks in source order. Accuracy subtracts cloud - edge, latency and
throughput subtract edge - cloud. -/
def calculate_metrics (cloud_result edge_result : List (String × JValue)) :
    Option Metrics := do
  let accuracy ← metricBlock "accuracy" (fun c e => c - e) cloud_result edge_result
  let latency ← metricBlock "avg_latency" (fun c e => e - c) cloud_result edge_result
  let throughput ← metricBlock "throughput" (fun c e => e - c) cloud_result edge_result
  some ⟨accuracy, latency, throughput⟩

/-- A model configuration as consumed by UnifiedEvaluator: its abbr label and
the adapter config passed to UnifiedAPIModel. -/
structure ModelCfg where
  abbr : String
  config : Config

/-- A dataset configuration as consumed by UnifiedEvaluator: its abbr label.
Prompts are irrelevant here because network outcomes are abstracted. -/
structure DatasetCfg where
  abbr : String
deriving DecidableEq

/-- UnifiedAPIModel.__init__ creating its adapter: the adapter type is
config.get("adapter_type", "openai"); a non-string tag never equals a string
key of the registry dict, so it fails as an unknown tag. -/
def initAdapter (config : Config) : Except AdapterError Adapter :=
  match configGet config "adapter_type" (.str "openai") with
  | .str s => create_adapter s config
  | t => .error (.unsupported (pyStr t))

/-- The per-dataset prediction documents: a JSON object, as read from
preds.json (some preds), or nothing when no predictions file was produced. -/
def TaskNet : Type := String → String → Except String (Option (List (String × JValue)))

/-- Modelled from the spec: build_model_from_cfg, NaivePartitioner and
OpenICLInferTask.run are not under src. Per spec sections 4.5 and 7, running
the one task of a model/dataset pair builds the UnifiedModel from its config
(so adapter construction errors surface as the failure of this pair) and then
performs the batch call, whose network outcome is abstracted by net. -/
def runTask (net : TaskNet) (m : ModelCfg) (d : DatasetCfg) :
    Except String (Option (List (String × JValue))) :=
  match initAdapter m.config with
  | .error e => .error e.message
  | .ok _ => net m.abbr d.abbr

/-- The value written into results[model][dataset] by UnifiedEvaluator.evaluate:
the predictions on success, an inline error marker when the task raised, and
nothing when the task succeeded but left no predictions file. -/
def pairEntry (net : TaskNet) (m : ModelCfg) (d : DatasetCfg) :
    Option (List (String × JValue)) :=
  match runTask net m d with
  | .ok (some preds) => some preds
  | .ok none => none
  | .error e => some [("error", .str e)]

/-- The nested results mapping built by evaluate:
model abbr to (dataset abbr to predictions-or-error object). -/
def Results : Type := List (String × List (String × List (String × JValue)))

/-- One task iteration of evaluate: ensure the outer key of the model exists
(results[model_abbr] defaulting to the empty dict) and store the pair entry
under the dataset key when there is one. -/
def evalStep (net : TaskNet) (m : ModelCfg) (results : Results) (d : DatasetCfg) :
    Results :=
  let inner := (dGet results m.abbr).getD []
  match pairEntry net m d with
  | some v => dInsert results m.abbr (dInsert inner d.abbr v)
  | none => dInsert results m.abbr inner

/-- The inner loop of evaluate for one model over all datasets. -/
def evalModel (net : TaskNet) (m : ModelCfg) (datasets : List DatasetCfg)
    (results : Results) : Results :=
  datasets.foldl (evalStep net m) results

/-- UnifiedEvaluator.evaluate(model_configs, dataset_configs): one task per
model/dataset pair, run model-major, each recording its entry (the task loop
catches exceptions of task.run, so one broken pair never aborts the run). -/
def evaluate (net : TaskNet) (models : List ModelCfg)
    (datasets : List DatasetCfg) : Results :=
  models.foldl (fun results m => evalModel net m datasets results) []

/-- The per-dataset comparison block of compare_models. -/
structure DatasetComparison where
  cloud : List (String × JValue)
  edge : List (String × JValue)
  metrics : Metrics

/-- The comparison report assembled by compare_models. -/
structure ComparisonReport where
  cloud : String
  edge : String
  datasets : List String
  results : Results
  comparison : List (String × DatasetComparison)

/-- One iteration of the comparison loop of compare_models: both sides of
the dataset are picked out of the results, defaulting to an empty dict, and
the metric deltas are computed (none when that computation raises). -/
def datasetComparison (results : Results) (cloudAbbr edgeAbbr : String)
    (d : DatasetCfg) : Option (String × DatasetComparison) :=
  let cloud_result := (dGet ((dGet results cloudAbbr).getD []) d.abbr).getD []
  let edge_result := (dGet ((dGet results edgeAbbr).getD []) d.abbr).getD []
  (calculate_metrics cloud_result edge_result).map
    (fun ms => (d.abbr, DatasetComparison.mk cloud_result edge_result ms))

/-- The comparison loop of compare_models over the datasets in order; a
raising iteration aborts the whole call. -/
def comparisonLoop (results : Results) (cloudAbbr edgeAbbr : String) :
    List DatasetCfg → Option (List (String × DatasetComparison))
  | [] => some []
  | d :: rest => do
    let entry ← datasetComparison results cloudAbbr edgeAbbr d
    let tail ← comparisonLoop results cloudAbbr edgeAbbr rest
    some (entry :: tail)

/-- UnifiedEvaluator.compare_models(cloud_model_config, edge_model_config,
dataset_configs): evaluate both configs, then assemble the report with the
per-dataset comparisons. -/
def compare_models (net : TaskNet) (cloudCfg edgeCfg : ModelCfg)
    (datasets : List DatasetCfg) : Option ComparisonReport :=
  let results := evaluate net [cloudCfg, edgeCfg] datasets
  (comparisonLoop results cloudCfg.abbr edgeCfg.abbr datasets).map
    (fun comparison =>
      ⟨cloudCfg.abbr, edgeCfg.abbr, datasets.map (·.abbr), results, comparison⟩)

/-! ## Shared lemmas about the dictionary model -/

theorem dGet_dInsert_self {α : Type} (d : List (String × α)) (k : String) (v : α) :
    dGet (dInsert d k v) k = some v := by
  induction d with
  | nil => simp [dInsert, dGet]
  | cons hd tl ih =>
    obtain ⟨k1, v1⟩ := hd
    by_cases h : k1 = k
    · simp [dInsert, dGet, h]
    · simp [dInsert, dGet, h, ih]

theorem dGet_dInsert_ne {α : Type} (d : List (String × α)) (k k2 : String) (v : α)
    (h : k2 ≠ k) : dGet (dInsert d k v) k2 = dGet d k2 := by
  induction d with
  | nil =>
    simp only [dInsert, dGet]
    rw [if_neg (fun hh => h hh.symm)]
  | cons hd tl ih =>
    obtain ⟨k1, v1⟩ := hd
    by_cases hk : k1 = k
    · subst hk
      simp only [dInsert, if_pos rfl, dGet]
      rw [if_neg (fun hh => h hh.symm), if_neg (fun hh => h hh.symm)]
    · simp only [dInsert, if_neg hk, dGet]
      by_cases hk2 : k1 = k2
      · rw [if_pos hk2, if_pos hk2]
      · rw [if_neg hk2, if_neg hk2, ih]

theorem dInsert_dInsert {α : Type} (d : List (String × α)) (k : String) (a b : α) :
    dInsert (dInsert d k a) k b = dInsert d k b := by
  induction d with
  | nil => simp [dInsert]
  | cons hd tl ih =>
    obtain ⟨k1, v1⟩ := hd
    by_cases h : k1 = k
    · simp [dInsert, h]
    · simp [dInsert, h, ih]

theorem splitDotsAux_ne_nil (cs : List Char) (acc : List Char) :
    splitDotsAux cs acc ≠ [] := by
  induction cs generalizing acc with
  | nil => simp [splitDotsAux]
  | cons c cs ih =>
    by_cases h : c = '.'
    · simp [splitDotsAux, h]
    · simp only [splitDotsAux, if_neg h]
      exact ih _

theorem splitDots_ne_nil (s : String) : splitDots s ≠ [] :=
  splitDotsAux_ne_nil s.data []

/-! ## Lemmas about the nested setter and the two walks -/

theorem pathClear_nil_left (keys : List String) : pathClear [] keys = true := by
  cases keys with
  | nil => rfl
  | cons k tail => cases tail <;> simp [pathClear, dGet]

theorem setNestedKeys_clear (keys : List String) :
    ∀ (d : List (String × JValue)) (v : JValue), keys ≠ [] →
      pathClear d keys = true →
      ∃ d2, setNestedKeys d keys v = some d2 ∧
        getNestedKeys (.obj d2) keys = some v := by
  induction keys with
  | nil => intro d v h _; exact absurd rfl h
  | cons k tail ih =>
    intro d v _ hclear
    cases tail with
    | nil =>
      refine ⟨dInsert d k v, rfl, ?_⟩
      simp [getNestedKeys, dGet_dInsert_self]
    | cons k2 ks =>
      unfold pathClear at hclear
      cases hget : dGet d k with
      | none =>
        obtain ⟨d2, hset, hgetv⟩ := ih [] v (by simp) (pathClear_nil_left _)
        refine ⟨dInsert d k (.obj d2), ?_, ?_⟩
        · simp only [setNestedKeys, hget, hset]
        · simp only [getNestedKeys, dGet_dInsert_self]
          exact hgetv
      | some w =>
        rw [hget] at hclear
        cases w with
        | obj d1 =>
          obtain ⟨d2, hset, hgetv⟩ := ih d1 v (by simp) hclear
          refine ⟨dInsert d k (.obj d2), ?_, ?_⟩
          · simp only [setNestedKeys, hget, hset]
          · simp only [getNestedKeys, dGet_dInsert_self]
            exact hgetv
        | null => simp at hclear
        | bool b => simp at hclear
        | num q => simp at hclear
        | str s => simp at hclear
        | arr elems => simp at hclear

theorem setNestedKeys_blocked (keys : List String) :
    ∀ (d : List (String × JValue)) (v : JValue),
      pathClear d keys = false → setNestedKeys d keys v = none := by
  induction keys with
  | nil => intro d v _; rfl
  | cons k tail ih =>
    intro d v hblock
    cases tail with
    | nil => simp [pathClear] at hblock
    | cons k2 ks =>
      unfold pathClear at hblock
      cases hget : dGet d k with
      | none => rw [hget] at hblock; simp at hblock
      | some w =>
        rw [hget] at hblock
        cases w with
        | obj d1 => simp only [setNestedKeys, hget, ih d1 v hblock]
        | null => simp [setNestedKeys, hget]
        | bool b => simp [setNestedKeys, hget]
        | num q => simp [setNestedKeys, hget]
        | str s => simp [setNestedKeys, hget]
        | arr elems => simp [setNestedKeys, hget]

theorem walkValue_append (pre : List String) :
    ∀ (r v : JValue) (post : List String), (∀ k ∈ pre, k ≠ "") →
      getNestedKeys r pre = some v →
      walkValue r (pre ++ post) = walkValue v post := by
  induction pre with
  | nil =>
    intro r v post _ h
    simp only [getNestedKeys, Option.some.injEq] at h
    rw [h.symm]; rfl
  | cons k tail ih =>
    intro r v post hne hget
    cases r with
    | obj d =>
      unfold getNestedKeys at hget
      cases hdk : dGet d k with
      | none => rw [hdk] at hget; exact absurd hget (by simp)
      | some w =>
        rw [hdk] at hget
        have hk : k ≠ "" := hne k (by simp)
        simp only [List.cons_append, walkValue, if_neg hk, hdk]
        exact ih w v post (fun k2 hk2 => hne k2 (by simp [hk2])) hget
    | null => simp [getNestedKeys] at hget
    | bool b => simp [getNestedKeys] at hget
    | num q => simp [getNestedKeys] at hget
    | str s => simp [getNestedKeys] at hget
    | arr elems => simp [getNestedKeys] at hget

/-! ## Claim C2 -/

/-- Claim C2 counterexample: setNested does not always succeed. When an
intermediate path position holds a non-mapping value (here the string x at
key a), the write raises instead of overwriting it with a fresh mapping. -/
theorem set_nested_value_nonmapping_cex :
    set_nested_value [("a", JValue.str "x")] "a.b" (JValue.num 1) = none := rfl

/-- Claim C2 (amended): setNested creates intermediate mapping levels as
needed and writes the value at the leaf named by splitting the dot path,
provided every existing value at an intermediate path position is a mapping;
when some intermediate position holds a non-mapping value, the call fails
(raises TypeError) instead of overwriting it. -/
theorem set_nested_value_behavior (data : List (String × JValue))
    (dotPath : String) (value : JValue) :
    (pathClear data (splitDots dotPath) = true →
      ∃ d2, set_nested_value data dotPath value = some d2 ∧
        getNested (JValue.obj d2) dotPath = some value) ∧
    (pathClear data (splitDots dotPath) = false →
      set_nested_value data dotPath value = none) :=
  ⟨fun h => setNestedKeys_clear (splitDots dotPath) data value (splitDots_ne_nil dotPath) h,
   fun h => setNestedKeys_blocked (splitDots dotPath) data value h⟩

/-- Witness for C2 at a concrete input: a clear path writes and reads back,
with one existing mapping level and one created level. -/
theorem set_nested_value_behavior_witness :
    ∃ d2, set_nested_value [("a", JValue.obj [("z", JValue.num 3)])] "a.b"
        (JValue.str "w") = some d2 ∧
      getNested (JValue.obj d2) "a.b" = some (JValue.str "w") :=
  (set_nested_value_behavior [("a", JValue.obj [("z", JValue.num 3)])] "a.b"
    (JValue.str "w")).1 rfl

/-! ## Claim C6 -/

/-- Claim C6: for every dot path and value, writing into an empty mapping
with setNested and reading the same path back with getNested returns the
original value (round trip). -/
theorem set_get_roundtrip (dotPath : String) (value : JValue) :
    ∃ d, set_nested_value [] dotPath value = some d ∧
      getNested (JValue.obj d) dotPath = some value :=
  setNestedKeys_clear (splitDots dotPath) [] value (splitDots_ne_nil dotPath)
    (pathClear_nil_left _)

/-! ## Claims C9 and C10 -/

/-- Claim C9 counterexample: when the walk stops partway at a falsy value
(here the number 0 reached at key data, with segment result unreachable),
extractResult returns the empty string, not the textual form of the last
successfully reached value (which would be the string 0). -/
theorem parse_response_textual_cex :
    parse_response [("result", "data.result")] [("data", JValue.num 0)] = "" ∧
    pyStr (walkValue (JValue.obj [("data", JValue.num 0)])
      (splitDots "data.result")) = "0" ∧
    ("" : String) ≠ "0" := ⟨rfl, rfl, by decide⟩

/-- Claim C9 (amended): extractResult walks the path and, if the walk fails
partway, stops early at the last successfully reached value; it returns that
value in textual form when the value is truthy, and the empty string when it
is falsy, never a not-found sentinel or an error. -/
theorem parse_response_deepest_reachable (response_mapping : List (String × String))
    (response : List (String × JValue)) (pre post : List String) (v : JValue)
    (hpath : splitDots ((dGet response_mapping "result").getD "") = pre ++ post)
    (hpre : ∀ k ∈ pre, k ≠ "")
    (hreach : getNestedKeys (JValue.obj response) pre = some v)
    (hstop : walkValue v post = v)
    (htruthy : v.isTruthy = true) :
    parse_response response_mapping response = pyStr v := by
  unfold parse_response
  rw [hpath, walkValue_append pre (.obj response) v post hpre hreach]
  simp [hstop, htruthy]

/-- Witness for C9 at a concrete input: the response is missing the final
path segment, so the deepest reachable intermediate value (the number 5) is
returned in textual form. -/
theorem parse_response_deepest_reachable_witness :
    parse_response [("result", "data.result")] [("data", JValue.num 5)] =
      pyStr (JValue.num 5) :=
  parse_response_deepest_reachable [("result", "data.result")]
    [("data", JValue.num 5)] ["data"] ["result"] (JValue.num 5)
    rfl (by decide) rfl rfl rfl

/-- Claim C10: whenever the value finally reached by the response walk is
falsy (0, False, the empty string, an empty container, or null),
extractResult returns the empty string instead of the textual form of the
value. -/
theorem parse_response_falsy_empty (response_mapping : List (String × String))
    (response : List (String × JValue))
    (h : (walkValue (JValue.obj response)
      (splitDots ((dGet response_mapping "result").getD ""))).isTruthy = false) :
    parse_response response_mapping response = "" := by
  unfold parse_response
  simp [h]

/-- Witness for C10 at a concrete input: the numeric result 0 is reached by
the full walk and is reported as the empty string rather than as 0. -/
theorem parse_response_falsy_empty_witness :
    parse_response [("result", "data.result")]
      [("data", JValue.obj [("result", JValue.num 0)])] = "" :=
  parse_response_falsy_empty [("result", "data.result")]
    [("data", JValue.obj [("result", JValue.num 0)])] rfl

/-! ## Claims C3 and C8 -/

/-- Claim C3 counterexample: a configuration with an explicitly empty
endpoint is accepted by the registry for the openai variant (validation only
checks api_key), so an accepted adapter can violate the claimed endpoint
invariant: its endpoint is empty and starts with neither scheme. -/
theorem create_adapter_endpoint_invariant_cex :
    create_adapter "openai" [("api_key", JValue.str "k"), ("endpoint", JValue.str "")] =
      Except.ok (Adapter.openai (OpenAIAdapter.build
        [("api_key", JValue.str "k"), ("endpoint", JValue.str "")])) ∧
    (Adapter.openai (OpenAIAdapter.build
      [("api_key", JValue.str "k"), ("endpoint", JValue.str "")])).endpoint =
      JValue.str "" ∧
    endpointInvariant (JValue.str "") = false := ⟨rfl, rfl, rfl⟩

/-- Claim C3 (amended): a configuration accepted by the registry satisfies
exactly what validate_config checks: for the openai variant a present and
truthy api_key, for the restful variant a present and truthy endpoint. No
check of the URL scheme is performed, and the openai variant does not
constrain the endpoint at all. -/
theorem create_adapter_accepted_checks (adapter_type : String) (config : Config)
    (a : Adapter) (h : create_adapter adapter_type config = .ok a) :
    (adapter_type = "openai" ∧
      ∃ v, dGet config "api_key" = some v ∧ v.isTruthy = true) ∨
    (adapter_type = "restful" ∧
      ∃ v, dGet config "endpoint" = some v ∧ v.isTruthy = true) := by
  unfold create_adapter at h
  split at h
  · left
    refine ⟨rfl, ?_⟩
    dsimp only at h
    split at h
    · rename_i hval
      unfold Adapter.validate OpenAIAdapter.validate_config at hval
      cases hv : dGet config "api_key" with
      | none => rw [hv] at hval; simp at hval
      | some v => rw [hv] at hval; exact ⟨v, rfl, hval⟩
    · cases h
  · right
    refine ⟨rfl, ?_⟩
    dsimp only at h
    split at h
    · rename_i hval
      unfold Adapter.validate RESTfulAdapter.validate_config at hval
      cases hv : dGet config "endpoint" with
      | none => rw [hv] at hval; simp at hval
      | some v => rw [hv] at hval; exact ⟨v, rfl, hval⟩
    · cases h
  · cases h

/-- Witness for C3 (amended) at a concrete input: a restful configuration
whose endpoint x is non-empty but carries no scheme is accepted, and the
accepted side of the disjunction records only the truthiness check. -/
theorem create_adapter_accepted_checks_witness :
    ("restful" = "openai" ∧
      ∃ v, dGet ([("endpoint", JValue.str "x")] : Config) "api_key" = some v ∧
        v.isTruthy = true) ∨
    ("restful" = "restful" ∧
      ∃ v, dGet ([("endpoint", JValue.str "x")] : Config) "endpoint" = some v ∧
        v.isTruthy = true) :=
  create_adapter_accepted_checks "restful" [("endpoint", JValue.str "x")]
    (Adapter.restful (RESTfulAdapter.build [("endpoint", JValue.str "x")])) rfl

/-- Claim C8: the registry fails with the unsupported-adapter error on an
unknown tag; an adapter is handed back only when its validate_config accepts
the configuration (fail fast, a misconfigured adapter is never returned);
create openai on the empty config fails with the configuration error, and
create restful with endpoint http://x succeeds. -/
theorem create_adapter_fail_fast :
    (∀ (t : String) (config : Config), t ≠ "openai" → t ≠ "restful" →
      create_adapter t config = .error (.unsupported t)) ∧
    (∀ (t : String) (config : Config) (a : Adapter),
      create_adapter t config = .ok a → a.validate config = true) ∧
    create_adapter "openai" [] = .error .invalidConfig ∧
    create_adapter "restful" [("endpoint", JValue.str "http://x")] =
      .ok (.restful (RESTfulAdapter.build [("endpoint", JValue.str "http://x")])) := by
  refine ⟨?_, ?_, rfl, rfl⟩
  · intro t config h1 h2
    unfold create_adapter
    split
    · exact absurd rfl h1
    · exact absurd rfl h2
    · rfl
  · intro t config a h
    unfold create_adapter at h
    split at h
    · dsimp only at h
      split at h
      · rename_i hval
        cases h
        exact hval
      · cases h
    · dsimp only at h
      split at h
      · rename_i hval
        cases h
        exact hval
      · cases h
    · cases h

/-- Witness for C8 at a concrete input: an unknown tag fails with the
unsupported-adapter error carrying that tag. -/
theorem create_adapter_fail_fast_witness :
    create_adapter "grpc" [] = .error (.unsupported "grpc") :=
  create_adapter_fail_fast.1 "grpc" [] (by decide) (by decide)

/-! ## Claim C7 -/

theorem metricBlock_spec (key : String) (sub : ℚ → ℚ → ℚ)
    (cloud_result edge_result : List (String × JValue)) (r : Option MetricDelta)
    (h : metricBlock key sub cloud_result edge_result = some r) :
    (dGet cloud_result key = none ↔ r = none) ∧
    ∀ d, r = some d → d.difference = sub d.cloud d.edge := by
  unfold metricBlock at h
  cases hget : dGet cloud_result key with
  | none =>
    rw [hget] at h
    cases h
    exact ⟨by simp, fun d hd => by cases hd⟩
  | some cv =>
    rw [hget] at h
    simp only [Option.bind_eq_some, Option.some.injEq] at h
    obtain ⟨c, _, e, _, hval⟩ := h
    subst hval
    exact ⟨by simp, fun d hd => by cases hd; rfl⟩

/-- Claim C7: a metric delta is computed exactly when the metric key is
present in the cloud result (a metric absent from the cloud side is skipped
even if present on the edge side), and the recorded difference follows the
per-metric sign rule: accuracy subtracts cloud minus edge, latency and
throughput subtract edge minus cloud. -/
theorem calculate_metrics_gate_and_sign (cloud_result edge_result : List (String × JValue))
    (m : Metrics) (h : calculate_metrics cloud_result edge_result = some m) :
    ((dGet cloud_result "accuracy" = none ↔ m.accuracy = none) ∧
      ∀ d, m.accuracy = some d → d.difference = d.cloud - d.edge) ∧
    ((dGet cloud_result "avg_latency" = none ↔ m.latency = none) ∧
      ∀ d, m.latency = some d → d.difference = d.edge - d.cloud) ∧
    ((dGet cloud_result "throughput" = none ↔ m.throughput = none) ∧
      ∀ d, m.throughput = some d → d.difference = d.edge - d.cloud) := by
  unfold calculate_metrics at h
  simp only [Option.bind_eq_bind, Option.bind_eq_some, Option.some.injEq] at h
  obtain ⟨acc, hacc, lat, hlat, thr, hthr, hm⟩ := h
  subst hm
  exact ⟨metricBlock_spec _ _ _ _ _ hacc, metricBlock_spec _ _ _ _ _ hlat,
    metricBlock_spec _ _ _ _ _ hthr⟩

/-- Witness for C7 at a concrete input: the metrics hypothesis holds by
computation, accuracy is present on the cloud side and its delta subtracts
cloud minus edge. -/
theorem calculate_metrics_gate_and_sign_witness :
    (dGet ([("accuracy", JValue.num 2), ("avg_latency", JValue.num 120)] :
        List (String × JValue)) "accuracy" = none ↔
      (Metrics.mk (some ⟨2, 1, 2 - 1⟩) (some ⟨120, 150, 150 - 120⟩) none).accuracy = none) ∧
    ∀ d, (Metrics.mk (some ⟨2, 1, 2 - 1⟩) (some ⟨120, 150, 150 - 120⟩) none).accuracy = some d →
      d.difference = d.cloud - d.edge :=
  (calculate_metrics_gate_and_sign
    [("accuracy", JValue.num 2), ("avg_latency", JValue.num 120)]
    [("accuracy", JValue.num 1), ("avg_latency", JValue.num 150), ("throughput", JValue.num 7)]
    (Metrics.mk (some ⟨2, 1, 2 - 1⟩) (some ⟨120, 150, 150 - 120⟩) none) rfl).1

/-! ## Claims C4 and C5: the dispatcher -/

theorem genLoop_fail (oracle : Nat → Except String String) (retry : Nat)
    (errs : Nat → String) (hfail : ∀ k, oracle k = .error (errs k)) :
    ∀ (len a : Nat), a + len = retry →
      genLoop oracle retry (List.range' a (len + 1)) =
        ⟨.error (errs retry), List.range' a (len + 1),
          (List.range' a len).map (fun k => 2 ^ k)⟩ := by
  intro len
  induction len with
  | zero =>
    intro a ha
    have ha2 : a = retry := by omega
    subst ha2
    simp [List.range'_succ, genLoop, hfail a]
  | succ n ih =>
    intro a ha
    have hne : a ≠ retry := by omega
    rw [List.range'_succ]
    show genLoop oracle retry (a :: List.range' (a + 1) (n + 1)) = _
    rw [genLoop, hfail a]
    dsimp only
    rw [if_neg hne, ih (a + 1) (by omega)]
    simp [List.range'_succ, List.map_cons]

theorem generate_single_fail (oracle : Nat → Except String String) (retry : Nat)
    (errs : Nat → String) (hfail : ∀ k, oracle k = .error (errs k)) :
    generate_single oracle retry =
      ⟨.error (errs retry), List.range (retry + 1),
        (List.range retry).map (fun k => 2 ^ k)⟩ := by
  unfold generate_single
  rw [List.range_eq_range', List.range_eq_range']
  exact genLoop_fail oracle retry errs hfail retry 0 (by omega)

theorem parStep_length (oracle : String → Nat → Except String String) (retry : Nat)
    (inputs : List String) (results : List (Option String)) (i : Nat) :
    (parStep oracle retry inputs results i).length = results.length := by
  unfold parStep
  cases inputs[i]? <;> simp

theorem foldl_parStep_getElem (oracle : String → Nat → Except String String)
    (retry : Nat) (inputs : List String) :
    ∀ (order : List Nat) (init : List (Option String)) (i : Nat)
      (hlen : init.length = inputs.length) (hi : i < inputs.length),
      (order.foldl (parStep oracle retry inputs) init)[i]? =
        if i ∈ order
        then some (some (itemText (generate_single (oracle inputs[i]) retry)))
        else init[i]? := by
  intro order
  induction order with
  | nil => intro init i _ _; simp
  | cons j rest ih =>
    intro init i hlen hi
    rw [List.foldl_cons, ih (parStep oracle retry inputs init j) i
      (by rw [parStep_length, hlen]) hi]
    by_cases hmem : i ∈ rest
    · simp [hmem]
    · by_cases hij : i = j
      · subst hij
        have hin : inputs[i]? = some inputs[i] := List.getElem?_eq_getElem hi
        simp only [parStep, hin, hmem, if_false, List.mem_cons, true_or, if_true]
        rw [List.getElem?_set_self (by omega)]
      · have : (i ∈ j :: rest) = False := by
          simp [List.mem_cons, hij, hmem]
        simp only [hmem, if_false, this, if_false]
        unfold parStep
        cases inputs[j]? with
        | none => rfl
        | some p => exact List.getElem?_set_ne (fun hh => hij hh.symm)

theorem foldl_parStep_length (oracle : String → Nat → Except String String)
    (retry : Nat) (inputs : List String) :
    ∀ (order : List Nat) (init : List (Option String)),
      (order.foldl (parStep oracle retry inputs) init).length = init.length := by
  intro order
  induction order with
  | nil => intro init; rfl
  | cons j rest ih =>
    intro init
    rw [List.foldl_cons, ih, parStep_length]

/-- Both branches of generate produce the input-order-aligned result list:
entry i is the item value of prompt i, whatever the completion order. -/
theorem generate_eq_map (oracle : String → Nat → Except String String)
    (retry query_per_second : Nat) (inputs : List String) (order : List Nat)
    (horder : List.Perm order (List.range inputs.length)) :
    generate oracle retry query_per_second inputs order =
      inputs.map (fun p => some (itemText (generate_single (oracle p) retry))) := by
  unfold generate
  by_cases hq : 0 < query_per_second
  · rw [if_pos hq]
    apply List.ext_getElem?
    intro n
    by_cases hn : n < inputs.length
    · rw [List.getElem?_map, List.getElem?_eq_getElem hn]
      unfold generate_par
      rw [foldl_parStep_getElem oracle retry inputs order _ n (by simp) hn,
        if_pos (horder.mem_iff.mpr (List.mem_range.mpr hn))]
      rfl
    · have h1 : (generate_par oracle retry inputs order).length ≤ n := by
        unfold generate_par
        rw [foldl_parStep_length]
        simp
        omega
      have h2 : (inputs.map (fun p => some (itemText (generate_single (oracle p) retry)))).length ≤ n := by
        simp
        omega
      rw [List.getElem?_eq_none h1, List.getElem?_eq_none h2]
  · rw [if_neg hq]
    have hseq : ∀ (l : List String) (acc : List String × List (String × Nat)),
        (l.foldl (seqStep oracle retry) acc).1 =
          acc.1 ++ l.map (fun p => itemText (generate_single (oracle p) retry)) := by
      intro l
      induction l with
      | nil => intro acc; simp
      | cons p rest ih =>
        intro acc
        rw [List.foldl_cons, ih]
        simp [seqStep]
    unfold generate_seq
    rw [hseq, List.nil_append, List.map_map]
    rfl

/-- The sequential branch issues its adapter calls in strict input order:
the call log is the concatenation, over the prompts in input order, of each
own calls of each item in attempt order. -/
theorem generate_seq_log (oracle : String → Nat → Except String String)
    (retry : Nat) (inputs : List String) :
    (generate_seq oracle retry inputs).2 =
      (inputs.map (fun p => (generate_single (oracle p) retry).calls.map
        (fun k => (p, k)))).flatten := by
  have hseq : ∀ (l : List String) (acc : List String × List (String × Nat)),
      (l.foldl (seqStep oracle retry) acc).2 =
        acc.2 ++ (l.map (fun p => (generate_single (oracle p) retry).calls.map
          (fun k => (p, k)))).flatten := by
    intro l
    induction l with
    | nil => intro acc; simp
    | cons p rest ih =>
      intro acc
      rw [List.foldl_cons, ih]
      simp [seqStep]
  unfold generate_seq
  rw [hseq]
  simp

/-- Claim C5: the returned sequence has the same length as the prompts and
is index-aligned with them. With a zero concurrency budget the calls are
issued strictly sequentially in input order (the call log is the in-order
concatenation of the per-item call sequences); with a positive budget
entry i still corresponds to prompt i whatever completion order the
concurrent futures take. -/
theorem generate_order_alignment (oracle : String → Nat → Except String String)
    (retry query_per_second : Nat) (inputs : List String) (order : List Nat)
    (horder : List.Perm order (List.range inputs.length)) :
    generate oracle retry query_per_second inputs order =
      inputs.map (fun p => some (itemText (generate_single (oracle p) retry))) ∧
    (generate oracle retry query_per_second inputs order).length = inputs.length ∧
    (query_per_second = 0 →
      (generate_seq oracle retry inputs).2 =
        (inputs.map (fun p => (generate_single (oracle p) retry).calls.map
          (fun k => (p, k)))).flatten) := by
  refine ⟨generate_eq_map oracle retry query_per_second inputs order horder, ?_, ?_⟩
  · rw [generate_eq_map oracle retry query_per_second inputs order horder]
    simp
  · intro _
    exact generate_seq_log oracle retry inputs

/-- Witness for C5 at a concrete input: three prompts, concurrency budget 2,
futures completing in the order 2, 0, 1; the returned sequence still lines
up with the prompts. -/
theorem generate_order_alignment_witness :
    generate (fun p _ => .ok ("r-" ++ p)) 1 2 ["a", "b", "c"] [2, 0, 1] =
      ["a", "b", "c"].map (fun p => some (itemText
        (generate_single ((fun (p : String) (_ : Nat) => Except.ok ("r-" ++ p)) p) 1))) :=
  (generate_order_alignment (fun p _ => .ok ("r-" ++ p)) 1 2 ["a", "b", "c"]
    [2, 0, 1] (by decide)).1

/-- Claim C4: an item whose adapter call always fails is attempted exactly
retry + 1 times (attempts 0 through retry, in order), sleeps 2 ^ k between
attempt k and attempt k + 1, ends with the last failure as its error (hence
a non-empty error descriptor when failure messages are non-empty) and the
empty string as its stored result; the batch still completes, every entry
being the item value of its own prompt. -/
theorem generate_failing_item_isolation (oracle : String → Nat → Except String String)
    (retry query_per_second : Nat) (inputs : List String) (order : List Nat)
    (i : Nat) (errs : Nat → String)
    (horder : List.Perm order (List.range inputs.length))
    (hi : i < inputs.length)
    (hfail : ∀ k, oracle inputs[i] k = .error (errs k))
    (hne : errs retry ≠ "") :
    (generate_single (oracle inputs[i]) retry).calls = List.range (retry + 1) ∧
    (generate_single (oracle inputs[i]) retry).sleeps =
      (List.range retry).map (fun k => 2 ^ k) ∧
    (∃ e, (generate_single (oracle inputs[i]) retry).result = .error e ∧ e ≠ "") ∧
    (generate oracle retry query_per_second inputs order)[i]? = some (some "") ∧
    ∀ (j : Nat) (hj : j < inputs.length),
      (generate oracle retry query_per_second inputs order)[j]? =
        some (some (itemText (generate_single (oracle (inputs.get ⟨j, hj⟩)) retry))) := by
  have hsingle := generate_single_fail (oracle inputs[i]) retry errs hfail
  have hmap := generate_eq_map oracle retry query_per_second inputs order horder
  refine ⟨by rw [hsingle], by rw [hsingle], ⟨errs retry, by rw [hsingle], hne⟩, ?_, ?_⟩
  · rw [hmap, List.getElem?_map, List.getElem?_eq_getElem hi]
    have hempty : itemText (generate_single (oracle inputs[i]) retry) = "" := by
      rw [hsingle]
      rfl
    simp [hempty]
  · intro j hj
    rw [hmap, List.getElem?_map, List.getElem?_eq_getElem hj]
    rfl

/-- Witness for C4 at a concrete input: a two-item batch with retry 2 where
the second item always fails; the failing slot stores the empty string. -/
theorem generate_failing_item_isolation_witness :
    (generate (fun p _ => if p = "bad" then .error "boom" else .ok ("r-" ++ p)) 2 3
      ["ok", "bad"] [1, 0])[1]? = some (some "") :=
  (generate_failing_item_isolation
    (fun p _ => if p = "bad" then .error "boom" else .ok ("r-" ++ p)) 2 3
    ["ok", "bad"] [1, 0] 1 (fun _ => "boom")
    (by decide) (by decide) (fun _ => rfl) (by decide)).2.2.2.1

/-! ## Claim C1: the evaluator -/

/-- The per-model inner dict update corresponding to one task. -/
def innerStep (net : TaskNet) (m : ModelCfg)
    (inner : List (String × List (String × JValue))) (d : DatasetCfg) :
    List (String × List (String × JValue)) :=
  match pairEntry net m d with
  | some v => dInsert inner d.abbr v
  | none => inner

/-- The per-model inner dict accumulated over the datasets. -/
def innerFold (net : TaskNet) (m : ModelCfg) (datasets : List DatasetCfg)
    (inner : List (String × List (String × JValue))) :
    List (String × List (String × JValue)) :=
  datasets.foldl (innerStep net m) inner

theorem evalStep_eq (net : TaskNet) (m : ModelCfg) (results : Results)
    (d : DatasetCfg) :
    evalStep net m results d =
      dInsert results m.abbr (innerStep net m ((dGet results m.abbr).getD []) d) := by
  unfold evalStep innerStep
  cases pairEntry net m d <;> rfl

theorem evalModel_other (net : TaskNet) (m : ModelCfg) :
    ∀ (datasets : List DatasetCfg) (results : Results) (k : String),
      k ≠ m.abbr → dGet (evalModel net m datasets results) k = dGet results k := by
  intro datasets
  induction datasets with
  | nil => intro results k _; rfl
  | cons d rest ih =>
    intro results k hk
    unfold evalModel
    rw [List.foldl_cons]
    show dGet (evalModel net m rest (evalStep net m results d)) k = _
    rw [ih (evalStep net m results d) k hk, evalStep_eq,
      dGet_dInsert_ne _ _ _ _ hk]

theorem evalModel_self (net : TaskNet) (m : ModelCfg) :
    ∀ (datasets : List DatasetCfg) (results : Results), datasets ≠ [] →
      dGet (evalModel net m datasets results) m.abbr =
        some (innerFold net m datasets ((dGet results m.abbr).getD [])) := by
  intro datasets
  induction datasets with
  | nil => intro results h; exact absurd rfl h
  | cons d rest ih =>
    intro results _
    unfold evalModel
    rw [List.foldl_cons]
    show dGet (evalModel net m rest (evalStep net m results d)) m.abbr = _
    by_cases hrest : rest = []
    · subst hrest
      show dGet (evalStep net m results d) m.abbr = _
      rw [evalStep_eq, dGet_dInsert_self]
      rfl
    · rw [ih (evalStep net m results d) hrest, evalStep_eq, dGet_dInsert_self]
      rfl

theorem innerFold_preserve (net : TaskNet) (m : ModelCfg) :
    ∀ (datasets : List DatasetCfg)
      (inner : List (String × List (String × JValue))) (k : String),
      k ∉ datasets.map (·.abbr) →
      dGet (innerFold net m datasets inner) k = dGet inner k := by
  intro datasets
  induction datasets with
  | nil => intro inner k _; rfl
  | cons d rest ih =>
    intro inner k hk
    rw [List.map_cons, List.mem_cons] at hk
    push_neg at hk
    unfold innerFold
    rw [List.foldl_cons]
    show dGet (innerFold net m rest (innerStep net m inner d)) k = _
    rw [ih (innerStep net m inner d) k hk.2]
    unfold innerStep
    cases pairEntry net m d with
    | none => rfl
    | some v => exact dGet_dInsert_ne _ _ _ _ hk.1

theorem innerFold_get (net : TaskNet) (m : ModelCfg) :
    ∀ (datasets : List DatasetCfg)
      (inner : List (String × List (String × JValue)))
      (d0 : DatasetCfg) (v : List (String × JValue)),
      (datasets.map (·.abbr)).Nodup → d0 ∈ datasets →
      pairEntry net m d0 = some v →
      dGet (innerFold net m datasets inner) d0.abbr = some v := by
  intro datasets
  induction datasets with
  | nil => intro inner d0 v _ hmem _; cases hmem
  | cons d rest ih =>
    intro inner d0 v hnodup hmem hpair
    rw [List.map_cons, List.nodup_cons] at hnodup
    unfold innerFold
    rw [List.foldl_cons]
    show dGet (innerFold net m rest (innerStep net m inner d)) d0.abbr = _
    rcases List.mem_cons.mp hmem with heq | hmem2
    · subst heq
      rw [innerFold_preserve net m rest _ _ hnodup.1]
      unfold innerStep
      rw [hpair, dGet_dInsert_self]
    · exact ih (innerStep net m inner d) d0 v hnodup.2 hmem2 hpair

theorem comparisonLoop_isSome (results : Results) (cloudAbbr edgeAbbr : String) :
    ∀ (datasets : List DatasetCfg),
      (∀ d ∈ datasets, (datasetComparison results cloudAbbr edgeAbbr d).isSome) →
      ∃ l, comparisonLoop results cloudAbbr edgeAbbr datasets = some l := by
  intro datasets
  induction datasets with
  | nil => intro _; exact ⟨[], rfl⟩
  | cons d rest ih =>
    intro h
    obtain ⟨entry, hentry⟩ := Option.isSome_iff_exists.mp (h d (by simp))
    obtain ⟨tail, htail⟩ := ih (fun d2 hd2 => h d2 (by simp [hd2]))
    exact ⟨entry :: tail, by
      unfold comparisonLoop
      rw [hentry, htail]
      rfl⟩

/-- Claim C1: when the edge model configuration is malformed (its adapter
construction fails, e.g. the restful variant misses its endpoint) while the
cloud tasks succeed, compare_models still returns a report: the cloud side
of every dataset holds its predictions and the edge side of every dataset is
the inline error-marker object; the broken model configuration taints only
its own pairs and evaluation continues for all remaining pairs. -/
theorem compare_models_malformed_edge (net : TaskNet) (cloudCfg edgeCfg : ModelCfg)
    (datasets : List DatasetCfg) (cloudPreds : String → List (String × JValue))
    (hab : cloudCfg.abbr ≠ edgeCfg.abbr)
    (hnodup : (datasets.map (·.abbr)).Nodup)
    (hedge : initAdapter edgeCfg.config = .error .invalidConfig)
    (hcloud : ∀ d ∈ datasets, runTask net cloudCfg d = .ok (some (cloudPreds d.abbr)))
    (hmetrics : ∀ d ∈ datasets,
      (calculate_metrics (cloudPreds d.abbr)
        [("error", JValue.str "Invalid configuration for adapter")]).isSome) :
    ∃ report, compare_models net cloudCfg edgeCfg datasets = some report ∧
      report.cloud = cloudCfg.abbr ∧ report.edge = edgeCfg.abbr ∧
      ∀ d ∈ datasets,
        dGet ((dGet report.results cloudCfg.abbr).getD []) d.abbr =
          some (cloudPreds d.abbr) ∧
        dGet ((dGet report.results edgeCfg.abbr).getD []) d.abbr =
          some [("error", JValue.str "Invalid configuration for adapter")] := by
  by_cases hds : datasets = []
  · subst hds
    exact ⟨⟨cloudCfg.abbr, edgeCfg.abbr, [], [], []⟩, rfl, rfl, rfl, by simp⟩
  · have hpc : ∀ d ∈ datasets, pairEntry net cloudCfg d = some (cloudPreds d.abbr) := by
      intro d hd
      unfold pairEntry
      rw [hcloud d hd]
    have hpe : ∀ d : DatasetCfg, pairEntry net edgeCfg d =
        some [("error", JValue.str "Invalid configuration for adapter")] := by
      intro d
      unfold pairEntry runTask
      rw [hedge]
      rfl
    have hcl : dGet (evaluate net [cloudCfg, edgeCfg] datasets) cloudCfg.abbr =
        some (innerFold net cloudCfg datasets []) := by
      show dGet (evalModel net edgeCfg datasets
        (evalModel net cloudCfg datasets [])) cloudCfg.abbr = _
      rw [evalModel_other net edgeCfg datasets _ _ hab,
        evalModel_self net cloudCfg datasets [] hds]
      rfl
    have hel : dGet (evaluate net [cloudCfg, edgeCfg] datasets) edgeCfg.abbr =
        some (innerFold net edgeCfg datasets []) := by
      show dGet (evalModel net edgeCfg datasets
        (evalModel net cloudCfg datasets [])) edgeCfg.abbr = _
      rw [evalModel_self net edgeCfg datasets _ hds,
        evalModel_other net cloudCfg datasets [] _ (fun h => hab h.symm)]
      rfl
    have hcd : ∀ d ∈ datasets,
        dGet (innerFold net cloudCfg datasets []) d.abbr = some (cloudPreds d.abbr) :=
      fun d hd => innerFold_get net cloudCfg datasets [] d _ hnodup hd (hpc d hd)
    have hed : ∀ d ∈ datasets,
        dGet (innerFold net edgeCfg datasets []) d.abbr =
          some [("error", JValue.str "Invalid configuration for adapter")] :=
      fun d hd => innerFold_get net edgeCfg datasets [] d _ hnodup hd (hpe d)
    have hsome : ∀ d ∈ datasets,
        (datasetComparison (evaluate net [cloudCfg, edgeCfg] datasets)
          cloudCfg.abbr edgeCfg.abbr d).isSome := by
      intro d hd
      unfold datasetComparison
      rw [hcl, hel]
      dsimp only [Option.getD_some]
      rw [hcd d hd, hed d hd]
      dsimp only [Option.getD_some]
      obtain ⟨ms, hms⟩ := Option.isSome_iff_exists.mp (hmetrics d hd)
      rw [hms]
      rfl
    obtain ⟨l, hl⟩ := comparisonLoop_isSome
      (evaluate net [cloudCfg, edgeCfg] datasets) cloudCfg.abbr edgeCfg.abbr
      datasets hsome
    refine ⟨⟨cloudCfg.abbr, edgeCfg.abbr, datasets.map (·.abbr),
      evaluate net [cloudCfg, edgeCfg] datasets, l⟩, ?_, rfl, rfl, ?_⟩
    · unfold compare_models
      dsimp only
      rw [hl]
      rfl
    · intro d hd
      constructor
      · show dGet ((dGet (evaluate net [cloudCfg, edgeCfg] datasets)
          cloudCfg.abbr).getD []) d.abbr = _
        rw [hcl]
        exact hcd d hd
      · show dGet ((dGet (evaluate net [cloudCfg, edgeCfg] datasets)
          edgeCfg.abbr).getD []) d.abbr = _
        rw [hel]
        exact hed d hd

/-- Witness for C1 at a concrete input: one dataset, a well-formed openai
cloud configuration, and an edge restful configuration missing its endpoint;
the call returns a report with cloud predictions populated and the inline
error marker on the edge side. -/
theorem compare_models_malformed_edge_witness :
    ∃ report,
      compare_models (fun _ _ => .ok (some [("accuracy", JValue.num 1)]))
        ⟨"cloud", [("adapter_type", JValue.str "openai"), ("api_key", JValue.str "k")]⟩
        ⟨"edge", [("adapter_type", JValue.str "restful")]⟩ [⟨"gsm8k"⟩] = some report ∧
      report.cloud = "cloud" ∧ report.edge = "edge" ∧
      ∀ d ∈ ([⟨"gsm8k"⟩] : List DatasetCfg),
        dGet ((dGet report.results "cloud").getD []) d.abbr =
          some [("accuracy", JValue.num 1)] ∧
        dGet ((dGet report.results "edge").getD []) d.abbr =
          some [("error", JValue.str "Invalid configuration for adapter")] :=
  compare_models_malformed_edge
    (fun _ _ => .ok (some [("accuracy", JValue.num 1)]))
    ⟨"cloud", [("adapter_type", JValue.str "openai"), ("api_key", JValue.str "k")]⟩
    ⟨"edge", [("adapter_type", JValue.str "restful")]⟩ [⟨"gsm8k"⟩]
    (fun _ => [("accuracy", JValue.num 1)])
    (by decide) (by decide) rfl (fun _ _ => rfl) (fun _ _ => rfl)

end UnifiedApi
